import Mathlib

/-!
Verification of the AgriTech-AI context-budgeting and conversation-persistence
subsystem. The definitions below are a shallow embedding of the Python source:

* `KnowledgeManager.format_messages` and `KnowledgeManager._reduce_tokens_below_limit`
  (src/knowledge_manager.py) — the ContextBudgetAssembler;
* `ChatManager.add_message` / `ChatManager.retrieve_all_messages`
  (src/database.py) — the ConversationLog;
* `FileDBManager.add_file` / `get_file_by_name` / `delete_file`
  (src/database.py) — the FileRegistry;
* `KnowledgeManager.chat` and `AIResponder.generate_response`
  (src/knowledge_manager.py, src/telegram_bot.py) — the ChatOrchestrator.

External collaborators (the LLM token counter, the vector store, the model
call) are parameters: a token-cost function `String → Nat` and fallible
collaborator functions returning `Except`. Python exceptions are modelled with
`Except`; database tables are modelled as lists of rows in insertion order.
-/

namespace AgriTech

/-- A retrieved passage, as langchain's `Document`: only `page_content` is
used by the code under verification. -/
structure Document where
  page_content : String
deriving DecidableEq

/-- The `while token_count > docs_limit: num_docs -= 1; token_count -= tokens[num_docs]`
loop of `_reduce_tokens_below_limit`, expressed on the number of kept docs.
At count `n` the running `token_count` equals `(tokens.take n).sum`, so the
loop guard at `n` is `(tokens.take n).sum > docs_limit`. -/
def reduceNumDocs (tokens : List Nat) (docs_limit : Nat) : Nat → Nat
  | 0 => 0
  | n + 1 =>
    if (tokens.take (n + 1)).sum > docs_limit then reduceNumDocs tokens docs_limit n
    else n + 1

/-- `KnowledgeManager._reduce_tokens_below_limit` (src/knowledge_manager.py
lines 147-157): cost every doc, then drop docs from the tail while the total
cost exceeds `docs_limit`; return `docs[:num_docs]`. -/
def reduce_tokens_below_limit (cost : String → Nat) (docs : List Document)
    (docs_limit : Nat) : List Document :=
  let tokens := docs.map (fun d => cost d.page_content)
  docs.take (reduceNumDocs tokens docs_limit docs.length)

/-- The accumulation loop of `KnowledgeManager.format_messages`
(src/knowledge_manager.py lines 115-138): walk the (human, ai) pairs in
order, keep a running token total, and `break` at the first pair whose
inclusion would push the total over `tokens_limit`. Returns the formatted
pairs that were accepted, in order. -/
def formatMessagesAux (cost : String → Nat) (ai_name : String)
    (tokens_limit : Nat) (human_only : Bool) :
    List (String × String) → Nat → List (String × String)
  | [], _ => []
  | (human_msg, ai_msg) :: rest, tokens_used =>
    let human_msg_formatted := "Human: " ++ human_msg
    let ai_msg_formatted := ai_name ++ ": " ++ ai_msg
    let human_tokens := cost human_msg_formatted
    let ai_tokens := cost ai_msg_formatted
    let new_tokens_used :=
      if human_only then tokens_used + human_tokens
      else tokens_used + human_tokens + ai_tokens
    if new_tokens_used > tokens_limit then []
    else (human_msg_formatted, ai_msg_formatted) ::
      formatMessagesAux cost ai_name tokens_limit human_only rest new_tokens_used

/-- `KnowledgeManager.format_messages` (src/knowledge_manager.py lines
107-145): serialize the accepted pairs with blank-line separators; in
`human_only` mode only the human-formatted line of each pair is kept. -/
def format_messages (cost : String → Nat) (chat_history : List (String × String))
    (tokens_limit : Nat) (human_only : Bool) (ai_name : String) : String :=
  let cleaned_msgs := formatMessagesAux cost ai_name tokens_limit human_only chat_history 0
  if human_only then
    String.intercalate "\n\n" (cleaned_msgs.map (fun m => m.1))
  else
    String.intercalate "\n\n" (cleaned_msgs.map (fun m => m.1 ++ "\n\n" ++ m.2))

/-- Cost that one (human, ai) pair contributes to the running total in
`format_messages`, as the code computes it. -/
def pairCost (cost : String → Nat) (ai_name : String) (human_only : Bool)
    (p : String × String) : Nat :=
  if human_only then cost ("Human: " ++ p.1)
  else cost ("Human: " ++ p.1) + cost (ai_name ++ ": " ++ p.2)

/-- Formatting applied by `format_messages` to one accepted pair. -/
def fmtPair (ai_name : String) (p : String × String) : String × String :=
  ("Human: " ++ p.1, ai_name ++ ": " ++ p.2)

/-- One row of the `ChatMessage` table (src/database.py lines 139-146):
`(namespace, sequence_number, human_message, ai_message)`. The Python column
`namespace` is called `nspace` here because `namespace` is a Lean keyword. -/
structure ChatRow where
  nspace : String
  sequence_number : Nat
  human_message : String
  ai_message : String
deriving DecidableEq

/-- Rows of the `ChatMessage` table whose `namespace` column equals `ns`
(the `select().where(namespace == ns)` query). -/
def chatSelect (db : List ChatRow) (ns : String) : List ChatRow :=
  db.filter (fun r => r.nspace == ns)

/-- The `order_by(sequence_number.desc()).first()` lookup in
`ChatManager.add_message`: the greatest sequence number stored for `ns`,
or `none` when the namespace has no rows. -/
def maxSeq (db : List ChatRow) (ns : String) : Option Nat :=
  ((chatSelect db ns).map (fun r => r.sequence_number)).max?

/-- `ChatManager.add_message` (src/database.py lines 153-164): the new row's
sequence number is `0` when the namespace has no rows, otherwise one plus the
stored maximum; the row is inserted at the end of the table. -/
def add_message (db : List ChatRow) (ns ai_message human_message : String) :
    List ChatRow :=
  let sequence_number :=
    match maxSeq db ns with
    | none => 0
    | some last => last + 1
  db ++ [⟨ns, sequence_number, human_message, ai_message⟩]

/-- A sequence of `add_message` calls for the same namespace performed one
after another (single writer), oldest first; each element of `msgs` is a
`(human_message, ai_message)` pair. -/
def addMessages (db : List ChatRow) (ns : String) :
    List (String × String) → List ChatRow
  | [] => db
  | (human_msg, ai_msg) :: rest => addMessages (add_message db ns ai_msg human_msg) ns rest

/-- Ordering used by `order_by(sequence_number)` in
`ChatManager.retrieve_all_messages`. -/
def seqLE (a b : ChatRow) : Prop := a.sequence_number ≤ b.sequence_number

instance : DecidableRel seqLE :=
  fun a b => inferInstanceAs (Decidable (a.sequence_number ≤ b.sequence_number))

instance : IsTotal ChatRow seqLE :=
  ⟨fun x y => Nat.le_total x.sequence_number y.sequence_number⟩

instance : IsTrans ChatRow seqLE := ⟨fun _ _ _ => Nat.le_trans⟩

/-- `ChatManager.retrieve_all_messages` (src/database.py lines 166-169):
select the namespace's rows, order them by `sequence_number` ascending, and
return their `(human_message, ai_message)` pairs. -/
def retrieve_all_messages (db : List ChatRow) (ns : String) :
    List (String × String) :=
  ((chatSelect db ns).insertionSort seqLE).map (fun r => (r.human_message, r.ai_message))

/-- The `FileModel` pydantic record (src/database.py lines 26-32). Optional
columns are `Option`; `file_bytes` is a byte sequence modelled as `List Nat`. -/
structure FileModel where
  filename : String
  description : Option String
  filetype : Option String
  vector_ids : List String
  file_content : Option String
  file_bytes : Option (List Nat)
deriving DecidableEq

/-- Errors raised by the `FileDBManager` methods. `duplicateKey` and
`notFound` are the two `ValueError`s raised explicitly; `typeError` is the
`TypeError` that Python's `bytes(None)` raises. -/
inductive DBError
  | duplicateKey
  | notFound
  | typeError
deriving DecidableEq

/-- `FileDBManager.file_to_pydantic` (src/database.py lines 66-74): copies
every column, but converts the stored bytes with `bytes(file.file_bytes)`,
which raises `TypeError` when `file_bytes` is `None` (absent). -/
def file_to_pydantic (file : FileModel) : Except DBError FileModel :=
  match file.file_bytes with
  | none => Except.error DBError.typeError
  | some bs =>
    Except.ok
      { filename := file.filename
        description := file.description
        filetype := file.filetype
        vector_ids := file.vector_ids
        file_content := file.file_content
        file_bytes := some bs }

/-- `FileDBManager.pydantic_to_file` (src/database.py lines 76-84): a
field-by-field copy into a table row. -/
def pydantic_to_file (file_model : FileModel) : FileModel :=
  { filename := file_model.filename
    description := file_model.description
    filetype := file_model.filetype
    vector_ids := file_model.vector_ids
    file_content := file_model.file_content
    file_bytes := file_model.file_bytes }

/-- `FileDBManager.add_file` (src/database.py lines 86-97): if a row with the
same filename exists, raise (`duplicateKey`) and leave the table alone;
otherwise save the new row and return `file_to_pydantic` of it — which can
itself raise (`typeError`) after the row was already inserted. Returns the
call's outcome paired with the table after the call. -/
def add_file (reg : List FileModel) (file_model : FileModel) :
    Except DBError FileModel × List FileModel :=
  if reg.any (fun r => r.filename == file_model.filename) then
    (Except.error DBError.duplicateKey, reg)
  else
    let file := pydantic_to_file file_model
    let reg' := reg ++ [file]
    match file_to_pydantic file with
    | Except.error e => (Except.error e, reg')
    | Except.ok back => (Except.ok back, reg')

/-- `FileDBManager.get_file_by_name` (src/database.py lines 99-105): fetch the
first row with the filename and convert it, returning `none` when absent;
the conversion's `TypeError` propagates. -/
def get_file_by_name (reg : List FileModel) (filename : String) :
    Except DBError (Option FileModel) :=
  match reg.find? (fun r => r.filename == filename) with
  | none => Except.ok none
  | some file =>
    match file_to_pydantic file with
    | Except.error e => Except.error e
    | Except.ok fm => Except.ok (some fm)

/-- `FileDBManager.delete_file` (src/database.py lines 107-115): pre-check via
`get_file_by_name`, raising (`notFound`) when the file is absent; otherwise
delete every row with that filename and return the deleted-row count.
Returns the call's outcome paired with the table after the call. -/
def delete_file (reg : List FileModel) (filename : String) :
    Except DBError Nat × List FileModel :=
  match get_file_by_name reg filename with
  | Except.error e => (Except.error e, reg)
  | Except.ok none => (Except.error DBError.notFound, reg)
  | Except.ok (some _) =>
    (Except.ok (reg.filter (fun r => r.filename == filename)).length,
      reg.filter (fun r => !(r.filename == filename)))

/-- Failures of the external collaborators used during a chat turn. -/
inductive CollabError
  | retrievalFailed
  | modelFailed
deriving DecidableEq

/-- `KnowledgeManager.chat` (src/knowledge_manager.py lines 159-216): build
the budgeted conversation text, build the human-only combined retrieval
query, run retrieval (`query_data`, fallible collaborator `search`), trim the
passages with `_reduce_tokens_below_limit`, and run the model call
(`chain.arun`, fallible collaborator `complete`, given the help data, the
conversation and the question). Any collaborator error propagates. -/
def chat (cost : String → Nat) (search : String → Except CollabError (List Document))
    (complete : String → String → String → Except CollabError String)
    (conversation_limit docs_limit : Nat) (query : String)
    (chat_history : List (String × String)) : Except CollabError String :=
  let conversation := format_messages cost chat_history conversation_limit false "AgritechAI"
  let combined := format_messages cost chat_history conversation_limit true "AgritechAI"
    ++ "\n" ++ ("Human: " ++ query)
  match search combined with
  | Except.error e => Except.error e
  | Except.ok docs =>
    let docs2 := reduce_tokens_below_limit cost docs docs_limit
    let help_data := String.intercalate "\n\n" (docs2.map (fun d => d.page_content))
    complete help_data conversation query

/-- `AIResponder.generate_response` (src/telegram_bot.py lines 35-43): run
`chat` on the user's stored history; only when it returns is the new
`(human, ai)` turn appended with `add_message`. Returns the turn's outcome
paired with the conversation log after the turn. -/
def generate_response (cost : String → Nat)
    (search : String → Except CollabError (List Document))
    (complete : String → String → String → Except CollabError String)
    (conversation_limit docs_limit : Nat) (db : List ChatRow)
    (user_id text : String) : Except CollabError String × List ChatRow :=
  match chat cost search complete conversation_limit docs_limit text
      (retrieve_all_messages db user_id) with
  | Except.error e => (Except.error e, db)
  | Except.ok ai_response => (Except.ok ai_response, add_message db user_id ai_response text)

/-- The trimming loop never keeps more docs than it started with. -/
theorem reduceNumDocs_le (tokens : List Nat) (docs_limit : Nat) :
    ∀ n, reduceNumDocs tokens docs_limit n ≤ n := by
  intro n
  induction n with
  | zero => simp [reduceNumDocs]
  | succ m ih =>
    rw [reduceNumDocs]
    split
    · exact Nat.le_succ_of_le ih
    · exact Nat.le_refl _

/-- On exit of the trimming loop the running total — the cost of the kept
prefix — is within the budget. -/
theorem reduceNumDocs_sum_le (tokens : List Nat) (docs_limit : Nat) :
    ∀ n, (tokens.take (reduceNumDocs tokens docs_limit n)).sum ≤ docs_limit := by
  intro n
  induction n with
  | zero => simp [reduceNumDocs]
  | succ m ih =>
    rw [reduceNumDocs]
    split
    · exact ih
    · omega

/-- C1 counterexample: `_reduce_tokens_below_limit` on a single passage
costing 500 with budget `D = 100` returns the empty list, not the passage:
the loop decrements `num_docs` to 0 and `docs[:0]` is empty, so the routine
does empty a non-empty input. -/
theorem reduce_tokens_below_limit_empties_overbudget_singleton :
    reduce_tokens_below_limit (fun _ => 500) [⟨"p"⟩] 100 = [] ∧
    reduce_tokens_below_limit (fun _ => 500) [⟨"p"⟩] 100 ≠ [⟨"p"⟩] := by decide

/-- C1 amended: on a single passage, `_reduce_tokens_below_limit` returns the
passage when its cost fits the budget and the empty list when its cost
exceeds the budget — an over-budget singleton is emptied, not passed
through. -/
theorem reduce_tokens_below_limit_singleton (cost : String → Nat) (d : Document)
    (D : Nat) :
    reduce_tokens_below_limit cost [d] D =
      if cost d.page_content ≤ D then [d] else [] := by
  by_cases h : cost d.page_content ≤ D
  · simp [reduce_tokens_below_limit, reduceNumDocs, h, Nat.not_lt.mpr h]
  · simp [reduce_tokens_below_limit, reduceNumDocs, h, Nat.lt_of_not_le h]

/-- C4: `_reduce_tokens_below_limit` drops passages from the tail only — the
result is always a prefix of the input, its total cost never exceeds the
budget, and with costs `[30, 30, 30, 30]` and `D = 65` exactly the first two
passages survive. -/
theorem reduce_tokens_below_limit_tail_trim :
    (∀ (cost : String → Nat) (docs : List Document) (D : Nat),
      (∃ k, reduce_tokens_below_limit cost docs D = docs.take k) ∧
      ((reduce_tokens_below_limit cost docs D).map (fun d => cost d.page_content)).sum ≤ D) ∧
    reduce_tokens_below_limit (fun _ => 30) [⟨"p1"⟩, ⟨"p2"⟩, ⟨"p3"⟩, ⟨"p4"⟩] 65
      = [⟨"p1"⟩, ⟨"p2"⟩] := by
  constructor
  · intro cost docs D
    refine ⟨⟨reduceNumDocs (docs.map (fun d => cost d.page_content)) D docs.length, ?_⟩, ?_⟩
    · rfl
    · have h := reduceNumDocs_sum_le (docs.map (fun d => cost d.page_content)) D docs.length
      simpa [reduce_tokens_below_limit, List.map_take] using h
  · decide

/-- C6: `add_file` on a filename that is already stored raises the
duplicate-key error and leaves the registry — including the previously
stored record — unchanged. -/
theorem add_file_duplicate (reg : List FileModel) (file_model : FileModel)
    (h : reg.any (fun r => r.filename == file_model.filename) = true) :
    add_file reg file_model = (Except.error DBError.duplicateKey, reg) := by
  simp [add_file, h]

/-- C6 witness: a concrete duplicate insert fails and preserves the stored
record. -/
theorem add_file_duplicate_witness :
    add_file [⟨"f", none, none, [], none, some []⟩]
        ⟨"f", some "d", none, ["v1"], none, some [1]⟩
      = (Except.error DBError.duplicateKey, [⟨"f", none, none, [], none, some []⟩]) :=
  add_file_duplicate _ _ (by decide)

/-- C10: adding a record whose optional bytes payload is absent does not
return the record — `file_to_pydantic` hits `bytes(None)` and raises
`TypeError` — and reading the filename back fails the same way, so the
add-then-read round-trip does not hold for records with absent bytes. -/
theorem add_file_none_bytes_type_error :
    (add_file [] ⟨"f", none, none, [], none, none⟩).1
      = Except.error DBError.typeError ∧
    get_file_by_name (add_file [] ⟨"f", none, none, [], none, none⟩).2 "f"
      = Except.error DBError.typeError := ⟨rfl, rfl⟩

/-- C5: when `chat` fails — which is exactly when a collaborator (retrieval
or model call) fails — `generate_response` propagates the error and the
conversation log is unchanged: nothing is appended for the failed turn. -/
theorem generate_response_aborts_on_collaborator_error
    (cost : String → Nat) (search : String → Except CollabError (List Document))
    (complete : String → String → String → Except CollabError String)
    (conversation_limit docs_limit : Nat) (db : List ChatRow)
    (user_id text : String) (e : CollabError)
    (h : chat cost search complete conversation_limit docs_limit text
        (retrieve_all_messages db user_id) = Except.error e) :
    generate_response cost search complete conversation_limit docs_limit db user_id text
      = (Except.error e, db) := by
  simp [generate_response, h]

/-- C5 witness: a concrete failing retrieval aborts the turn and the log
stays as it was. -/
theorem generate_response_aborts_witness :
    generate_response (fun _ => 0) (fun _ => Except.error CollabError.retrievalFailed)
        (fun _ _ _ => Except.ok "resp") 800 3000
        [⟨"u1", 0, "hi", "hello"⟩] "u1" "question"
      = (Except.error CollabError.retrievalFailed, [⟨"u1", 0, "hi", "hello"⟩]) :=
  generate_response_aborts_on_collaborator_error _ _ _ _ _ _ _ _ _ rfl

/-- One step of the `format_messages` loop, written with `pairCost` and
`fmtPair`. -/
theorem formatMessagesAux_cons (cost : String → Nat) (ai_name : String)
    (tokens_limit : Nat) (human_only : Bool) (hm am : String)
    (rest : List (String × String)) (tokens_used : Nat) :
    formatMessagesAux cost ai_name tokens_limit human_only ((hm, am) :: rest) tokens_used
      = if tokens_used + pairCost cost ai_name human_only (hm, am) > tokens_limit then []
        else fmtPair ai_name (hm, am) ::
          formatMessagesAux cost ai_name tokens_limit human_only rest
            (tokens_used + pairCost cost ai_name human_only (hm, am)) := by
  cases human_only <;> simp [formatMessagesAux, pairCost, fmtPair, Nat.add_assoc]

/-- C8 counterexample: with a token-cost function that can return 0, a
zero-cost pair is accepted even at budget `L = 0` (`new_tokens_used > 0`
fails at `0 > 0`), so the result is not the empty string. -/
theorem format_messages_zero_budget_zero_cost :
    format_messages (fun _ => 0) [("a", "b")] 0 false "AgritechAI" ≠ "" := by decide

/-- C8 amended: when the token-cost function is positive on every string —
as a real tokenizer is on the non-empty formatted lines — `format_messages`
with budget `L = 0` returns the empty string: the very first pair already
overflows the budget. -/
theorem format_messages_zero_budget (cost : String → Nat)
    (hpos : ∀ s, 0 < cost s) (chat_history : List (String × String))
    (human_only : Bool) (ai_name : String) :
    format_messages cost chat_history 0 human_only ai_name = "" := by
  have haux : formatMessagesAux cost ai_name 0 human_only chat_history 0 = [] := by
    cases chat_history with
    | nil => rfl
    | cons p rest =>
      obtain ⟨hm, am⟩ := p
      have h1 := hpos ("Human: " ++ hm)
      have hpc : 0 < pairCost cost ai_name human_only (hm, am) := by
        cases human_only <;> simp [pairCost] <;> omega
      rw [formatMessagesAux_cons, if_pos (by omega)]
  cases human_only <;> simp [format_messages, haux] <;> rfl

/-- C8 amended witness: a unit-cost tokenizer at budget 0 yields the empty
string on a non-empty history. -/
theorem format_messages_zero_budget_witness :
    format_messages (fun _ => 1) [("a", "b")] 0 false "AgritechAI" = "" :=
  format_messages_zero_budget (fun _ => 1) (fun _ => Nat.one_pos) [("a", "b")] false "AgritechAI"

/-- The accumulation loop keeps exactly the longest prefix every one of whose
running totals fits the budget, and stops for good at the first pair that
would overflow it. -/
theorem formatMessagesAux_take_spec (cost : String → Nat) (ai_name : String)
    (tokens_limit : Nat) (human_only : Bool) :
    ∀ (chat_history : List (String × String)) (tokens_used : Nat),
    ∃ k, k ≤ chat_history.length ∧
      formatMessagesAux cost ai_name tokens_limit human_only chat_history tokens_used
        = (chat_history.take k).map (fmtPair ai_name) ∧
      (∀ j, 1 ≤ j → j ≤ k →
        tokens_used + ((chat_history.take j).map (pairCost cost ai_name human_only)).sum
          ≤ tokens_limit) ∧
      (k < chat_history.length →
        tokens_used + ((chat_history.take (k + 1)).map (pairCost cost ai_name human_only)).sum
          > tokens_limit) := by
  intro hist
  induction hist with
  | nil =>
    intro tokens_used
    refine ⟨0, Nat.le_refl _, rfl, ?_, ?_⟩
    · intro j hj1 hj0
      omega
    · intro h
      simp at h
  | cons p rest ih =>
    intro tokens_used
    obtain ⟨hm, am⟩ := p
    rw [formatMessagesAux_cons]
    by_cases hover :
        tokens_used + pairCost cost ai_name human_only (hm, am) > tokens_limit
    · refine ⟨0, Nat.zero_le _, ?_, ?_, ?_⟩
      · rw [if_pos hover]
        rfl
      · intro j hj1 hj0
        omega
      · intro _
        simpa using hover
    · obtain ⟨k, hklen, hkeq, hkall, hknext⟩ :=
        ih (tokens_used + pairCost cost ai_name human_only (hm, am))
      refine ⟨k + 1, by simpa using Nat.succ_le_succ hklen, ?_, ?_, ?_⟩
      · rw [if_neg hover, hkeq]
        simp [List.take_succ_cons]
      · intro j hj1 hjk
        cases j with
        | zero => omega
        | succ j' =>
          simp only [List.take_succ_cons, List.map_cons, List.sum_cons]
          cases Nat.eq_zero_or_pos j' with
          | inl hz =>
            subst hz
            simp only [List.take_zero, List.map_nil, List.sum_nil]
            omega
          | inr hpos' =>
            have := hkall j' hpos' (by omega)
            omega
      · intro hlt
        have hlt' : k < rest.length := by
          simpa using Nat.lt_of_succ_lt_succ hlt
        have := hknext hlt'
        simp only [List.take_succ_cons, List.map_cons, List.sum_cons]
        omega

/-- C3: chat-history trimming includes exactly the pairs of the longest
prefix whose running totals all fit the budget; the first overflowing pair
and everything after it are excluded, and with per-pair cost 50 and budget
120 exactly the first two pairs survive. -/
theorem format_messages_stop_at_first_overflow :
    (∀ (cost : String → Nat) (ai_name : String) (tokens_limit : Nat)
        (chat_history : List (String × String)),
      ∃ k, k ≤ chat_history.length ∧
        formatMessagesAux cost ai_name tokens_limit false chat_history 0
          = (chat_history.take k).map (fmtPair ai_name) ∧
        (∀ j, 1 ≤ j → j ≤ k →
          ((chat_history.take j).map (pairCost cost ai_name false)).sum ≤ tokens_limit) ∧
        (k < chat_history.length →
          ((chat_history.take (k + 1)).map (pairCost cost ai_name false)).sum
            > tokens_limit)) ∧
    formatMessagesAux (fun _ => 25) "AgritechAI" 120 false
        [("q1", "r1"), ("q2", "r2"), ("q3", "r3")] 0
      = [("Human: q1", "AgritechAI: r1"), ("Human: q2", "AgritechAI: r2")] ∧
    format_messages (fun _ => 25) [("q1", "r1"), ("q2", "r2"), ("q3", "r3")] 120 false
        "AgritechAI"
      = "Human: q1\n\nAgritechAI: r1\n\nHuman: q2\n\nAgritechAI: r2" := by
  refine ⟨?_, by decide, by decide⟩
  intro cost ai_name tokens_limit chat_history
  have h := formatMessagesAux_take_spec cost ai_name tokens_limit false chat_history 0
  simpa using h

/-- The maximum of `0, 1, ..., m` is `m`. -/
theorem range_succ_max? (m : Nat) : (List.range (m + 1)).max? = some m := by
  rw [List.max?_eq_some_iff']
  constructor
  · simp [List.mem_range]
  · intro b hb
    simp only [List.mem_range] at hb
    omega

/-- One `add_message` call on a namespace whose stored sequence numbers are
`0, ..., k-1` appends a row numbered `k`. -/
theorem add_message_seq_step (db : List ChatRow) (ns hm am : String) (k : Nat)
    (h : (chatSelect db ns).map (fun r => r.sequence_number) = List.range k) :
    (chatSelect (add_message db ns am hm) ns).map (fun r => r.sequence_number)
      = List.range (k + 1) := by
  have hmax : maxSeq db ns = (List.range k).max? := by
    rw [maxSeq, h]
  have hfilter : chatSelect (add_message db ns am hm) ns
      = chatSelect db ns
        ++ [⟨ns, (match maxSeq db ns with | none => 0 | some last => last + 1), hm, am⟩] := by
    simp [chatSelect, add_message]
  rw [hfilter, List.map_append, h]
  cases k with
  | zero =>
    have hnone : maxSeq db ns = none := by rw [hmax]; rfl
    simp [hnone, List.range_succ]
  | succ m =>
    have hsome : maxSeq db ns = some m := by rw [hmax, range_succ_max?]
    simp [hsome, List.range_succ]

/-- Sequential appends extend a gap-free run of sequence numbers by one per
append, keeping it gap-free. -/
theorem addMessages_seq_range (ns : String) :
    ∀ (msgs : List (String × String)) (db : List ChatRow) (k : Nat),
    (chatSelect db ns).map (fun r => r.sequence_number) = List.range k →
    (chatSelect (addMessages db ns msgs) ns).map (fun r => r.sequence_number)
      = List.range (k + msgs.length) := by
  intro msgs
  induction msgs with
  | nil =>
    intro db k h
    simpa using h
  | cons p rest ih =>
    intro db k h
    obtain ⟨hm, am⟩ := p
    have hstep := add_message_seq_step db ns hm am k h
    have h2 := ih (add_message db ns am hm) (k + 1) hstep
    simp only [addMessages, List.length_cons]
    have hlen : k + (rest.length + 1) = k + 1 + rest.length := by omega
    rw [hlen]
    exact h2

/-- C2: starting from a namespace with no rows, `N` sequential `add_message`
calls store exactly the sequence numbers `0, ..., N-1` in append order — no
gaps, no duplicates — because each call assigns 0 on an empty namespace and
otherwise one plus the stored maximum. -/
theorem add_message_sequence_numbers (db : List ChatRow) (ns : String)
    (msgs : List (String × String)) (h : chatSelect db ns = []) :
    (chatSelect (addMessages db ns msgs) ns).map (fun r => r.sequence_number)
      = List.range msgs.length := by
  have h0 : (chatSelect db ns).map (fun r => r.sequence_number) = List.range 0 := by
    simp [h]
  simpa using addMessages_seq_range ns msgs db 0 h0

/-- C2 witness: two appends to a fresh namespace get numbered 0 and 1. -/
theorem add_message_sequence_numbers_witness :
    (chatSelect (addMessages [] "u1" [("hi", "hello"), ("q", "r")]) "u1").map
        (fun r => r.sequence_number) = List.range 2 :=
  add_message_sequence_numbers [] "u1" [("hi", "hello"), ("q", "r")] rfl

/-- C7: `retrieve_all_messages` returns the namespace's `(human, assistant)`
pairs read off a row list sorted ascending by sequence number, and its result
is empty exactly when the namespace has no rows — an empty namespace yields
the empty sequence, not an error. -/
theorem retrieve_all_messages_sorted (db : List ChatRow) (ns : String) :
    List.Sorted seqLE ((chatSelect db ns).insertionSort seqLE) ∧
    retrieve_all_messages db ns
      = ((chatSelect db ns).insertionSort seqLE).map
          (fun r => (r.human_message, r.ai_message)) ∧
    (retrieve_all_messages db ns = [] ↔ chatSelect db ns = []) := by
  refine ⟨List.sorted_insertionSort seqLE _, rfl, ?_, ?_⟩
  · intro h
    have h1 : (chatSelect db ns).insertionSort seqLE = [] := by
      exact List.map_eq_nil_iff.mp h
    have hperm := (List.perm_insertionSort seqLE (chatSelect db ns)).symm
    rw [h1] at hperm
    exact hperm.eq_nil
  · intro h
    rw [retrieve_all_messages, h]
    rfl

/-- Counting occurrences in a duplicate-free list of strings: a member is
counted exactly once. -/
theorem countP_beq_of_nodup (l : List String) (a : String) (hnd : l.Nodup)
    (hmem : a ∈ l) : List.countP (fun s => s == a) l = 1 := by
  induction l with
  | nil => simp at hmem
  | cons x xs ih =>
    rw [List.countP_cons]
    rcases List.mem_cons.mp hmem with rfl | h
    · have hx : a ∉ xs := (List.nodup_cons.mp hnd).1
      have hzero : List.countP (fun s => s == a) xs = 0 := by
        rw [List.countP_eq_zero]
        intro s hs hbeq
        have hsa : s = a := by simpa using hbeq
        subst hsa
        exact hx hs
      simp [hzero]
    · have hne : x ≠ a := by
        rintro rfl
        exact (List.nodup_cons.mp hnd).1 h
      have hc := ih (List.nodup_cons.mp hnd).2 h
      simp [hc, hne]

/-- C9: under the registry invariants — unique filenames, bytes payload
present on every stored row — `delete_file` raises the not-found error and
leaves the registry unchanged when the filename is absent, and otherwise
removes the record and reports a count of exactly 1. -/
theorem delete_file_contract (reg : List FileModel) (filename : String)
    (hnd : (reg.map (fun r => r.filename)).Nodup)
    (hbytes : ∀ r ∈ reg, r.file_bytes ≠ none) :
    delete_file reg filename =
      if filename ∈ reg.map (fun r => r.filename) then
        (Except.ok 1, reg.filter (fun r => !(r.filename == filename)))
      else (Except.error DBError.notFound, reg) := by
  by_cases hmem : filename ∈ reg.map (fun r => r.filename)
  · rw [if_pos hmem]
    have hsome : (reg.find? (fun x => x.filename == filename)).isSome := by
      rw [List.find?_isSome]
      obtain ⟨r, hr, hfn⟩ := List.mem_map.mp hmem
      exact ⟨r, hr, by simp [hfn]⟩
    obtain ⟨a, ha⟩ := Option.isSome_iff_exists.mp hsome
    have hamem := List.mem_of_find?_eq_some ha
    obtain ⟨bs, hbs⟩ : ∃ bs, a.file_bytes = some bs := by
      cases hab : a.file_bytes with
      | none => exact absurd hab (hbytes a hamem)
      | some bs => exact ⟨bs, rfl⟩
    have hlen : (reg.filter (fun x => x.filename == filename)).length = 1 := by
      rw [← List.countP_eq_length_filter]
      rw [show List.countP (fun x => x.filename == filename) reg
          = List.countP (fun s => s == filename) (reg.map (fun x => x.filename)) from by
        rw [List.countP_map]; rfl]
      exact countP_beq_of_nodup _ _ hnd hmem
    simp [delete_file, get_file_by_name, ha, file_to_pydantic, hbs, hlen]
  · rw [if_neg hmem]
    have hfind : reg.find? (fun x => x.filename == filename) = none := by
      rw [List.find?_eq_none]
      intro r hr hbeq
      exact hmem (List.mem_map.mpr ⟨r, hr, by simpa using hbeq⟩)
    simp [delete_file, get_file_by_name, hfind]

/-- C9 witness: deleting the only stored record succeeds with count 1;
the instantiated contract covers the not-found branch as well. -/
theorem delete_file_contract_witness :
    delete_file [⟨"f", none, none, [], none, some []⟩] "f" = (Except.ok 1, []) := by
  have h := delete_file_contract [⟨"f", none, none, [], none, some []⟩] "f"
    (by decide) (by decide)
  simpa using h

/-- C9 counterexample: on a registry holding a record whose bytes payload is
absent — a state `insert_many` creates without error, and `add_file` creates
before raising — `delete_file` on that (existing!) filename raises the
`bytes(None)` `TypeError` through its `get_file_by_name` pre-check: it
neither raises the not-found error nor removes the record and returns a
count. -/
theorem delete_file_none_bytes_counterexample :
    delete_file [⟨"f", none, none, [], none, none⟩] "f"
      = (Except.error DBError.typeError, [⟨"f", none, none, [], none, none⟩]) ∧
    (delete_file [⟨"f", none, none, [], none, none⟩] "f").1
      ≠ Except.error DBError.notFound :=
  ⟨rfl, fun h => by injection h with h2; cases h2⟩

end AgriTech
